import Mathlib

/-!
Shallow embedding of `postprocessing.py` from the mapping-challenge
post-processing pipeline, together with proofs of the specification claims.

Images and numeric arrays are modelled as plain Lean lists; a NumPy
n-dimensional array is a shape together with a flat data list.  Python
generators are modelled as the (finite) list of elements they yield;
a Python exception surfacing from a transform is modelled by `Option`.
-/

/-- A 2-D grid of pixels (list of rows).  Used for masks and label images. -/
abbrev Grid (α : Type) : Type := List (List α)

/-- Model of a NumPy ndarray: a shape and the flat (row-major) data. -/
structure NdArray (α : Type) where
  shape : List Nat
  data : List α
deriving DecidableEq

/-- A batch item yielded by the upstream data generator.  In the Python code a
batch item is either a bare tensor (whose `.numpy()` gives the image batch),
a Python `list`, or a Python `tuple`; `isinstance(data, list)` distinguishes
only the second. -/
inductive PyData (α : Type) where
  | arr (batch : List α)
  | pylist (elems : List (PyData α))
  | pytuple (elems : List (PyData α))

/-- Conversion `X.numpy()` viewed as a list of images: succeeds only when the
value is a bare array; on a list or tuple the attribute access raises,
modelled by `none`. -/
def asArr {α : Type} : PyData α → Option (List α)
  | .arr b => some b
  | _ => none

/-- The dispatch in `get_original_images`:
`X = data[0] if isinstance(data, list) else data`.  Indexing an empty Python
list raises, modelled by `none`. -/
def extractX {α : Type} : PyData α → Option (PyData α)
  | .pylist es => es.head?
  | d => some d

/-- The image batch actually extracted from one batch item by the code:
the `isinstance(data, list)` dispatch followed by `X.numpy()`. -/
def extractBatch {α : Type} (d : PyData α) : Option (List α) :=
  (extractX d).bind asArr

/-- The batch-extraction rule as the claim states it: the item itself when it
is a bare array, the first element when the item is a composite list *or
tuple*.  Stated from the claim's words, for comparison with `extractBatch`. -/
def claimedExtractRule {α : Type} : PyData α → Option (List α)
  | .arr b => some b
  | .pylist es => es.head?.bind asArr
  | .pytuple es => es.head?.bind asArr

/-- The amended batch-extraction rule: first element only for Python `list`
items; bare arrays are used as-is; a `tuple` is not unwrapped, so the
`.numpy()` conversion fails on it. -/
def amendedExtractRule {α : Type} : PyData α → Option (List α)
  | .arr b => some b
  | .pylist es => es.head?.bind asArr
  | .pytuple _ => none

/-- Loop body of `DenseCRF.get_original_images` (eager variant): walks the
batch generator with an accumulator of images appended so far, breaking once
`batch_id == steps` after the batch is consumed. -/
def goA {α : Type} : List (PyData α) → Nat → Nat → List α → Option (List α)
  | [], _, _, acc => some acc
  | d :: rest, batch_id, steps, acc =>
    match extractBatch d with
    | none => none
    | some X =>
      if batch_id == steps then some (acc ++ X)
      else goA rest (batch_id + 1) steps (acc ++ X)

/-- `DenseCRF.get_original_images`: materializes all aligned raw images from
the `(batch_gen, steps)` pair. -/
def DenseCRF.get_original_images {α : Type} (datagen : List (PyData α) × Nat) :
    Option (List α) :=
  goA datagen.1 0 datagen.2 []

/-- Loop body of `DenseCRFStream.get_original_images` (generator variant):
yields the images of each batch, breaking once `batch_id == steps`.  The
generator is modelled by the list of elements it yields; an exception while
producing is modelled by `none`. -/
def goS {α : Type} : List (PyData α) → Nat → Nat → Option (List α)
  | [], _, _ => some []
  | d :: rest, batch_id, steps =>
    match extractBatch d with
    | none => none
    | some X =>
      if batch_id == steps then some X
      else (goS rest (batch_id + 1) steps).map (fun tl => X ++ tl)

/-- `DenseCRFStream.get_original_images`: the streaming aligner. -/
def DenseCRFStream.get_original_images {α : Type} (datagen : List (PyData α) × Nat) :
    Option (List α) :=
  goS datagen.1 0 datagen.2

/-- Instrumentation of the aligner loop: how many batch items the loop pulls
from the generator before returning (by exhaustion, break, or error). -/
def consumedBatches {α : Type} : List (PyData α) → Nat → Nat → Nat
  | [], _, _ => 0
  | d :: rest, batch_id, steps =>
    match extractBatch d with
    | none => 1
    | some _ =>
      if batch_id == steps then 1
      else 1 + consumedBatches rest (batch_id + 1) steps

/-- Eager accumulation: a Python `for` loop appending `f a` to a list. -/
def appendLoop {α β : Type} (f : α → β) (l : List α) : List β :=
  l.foldl (fun acc a => acc ++ [f a]) []

/-- Generator semantics: a Python `for` loop yielding `f a` one at a time,
collected into the list of yielded elements. -/
def yieldMap {α β : Type} (f : α → β) : List α → List β
  | [] => []
  | a :: rest => f a :: yieldMap f rest

lemma yieldMap_eq_map {α β : Type} (f : α → β) (l : List α) :
    yieldMap f l = l.map f := by
  induction l with
  | nil => rfl
  | cons a rest ih => simp [yieldMap, ih]

lemma appendLoop_eq_map {α β : Type} (f : α → β) (l : List α) :
    appendLoop f l = l.map f := by
  suffices h : ∀ acc : List β, l.foldl (fun acc a => acc ++ [f a]) acc = acc ++ l.map f by
    simpa [appendLoop] using h []
  induction l with
  | nil => intro acc; simp
  | cons a rest ih => intro acc; simp [List.foldl_cons, ih]

lemma goA_eq_goS {α : Type} (items : List (PyData α)) (b s : Nat) (acc : List α) :
    goA items b s acc = (goS items b s).map (fun tl => acc ++ tl) := by
  induction items generalizing b acc with
  | nil => simp [goA, goS]
  | cons d rest ih =>
    simp only [goA, goS]
    cases hx : extractBatch d with
    | none => rfl
    | some X =>
      by_cases hb : (b == s) = true
      · simp [hb]
      · simp only [Bool.not_eq_true] at hb
        simp [hb, ih, Option.map_map, List.append_assoc]
        rfl

lemma get_original_images_eager_eq_stream {α : Type} (datagen : List (PyData α) × Nat) :
    DenseCRF.get_original_images datagen = DenseCRFStream.get_original_images datagen := by
  unfold DenseCRF.get_original_images DenseCRFStream.get_original_images
  rw [goA_eq_goS]
  cases goS datagen.1 0 datagen.2 <;> simp

lemma goS_full {α : Type} (bs : List (List α)) (b s : Nat) (h : b + bs.length = s + 1) :
    goS (bs.map PyData.arr) b s = some bs.flatten := by
  induction bs generalizing b with
  | nil => simp [goS]
  | cons X rest ih =>
    simp only [List.map_cons, goS, extractBatch, extractX, asArr, Option.bind]
    by_cases hb : (b == s) = true
    · have hbs : b = s := by simpa using hb
      simp only [List.length_cons] at h
      have hrest : rest.length = 0 := by omega
      have : rest = [] := List.eq_nil_of_length_eq_zero hrest
      subst this
      simp [hb]
    · have hlen : (b + 1) + rest.length = s + 1 := by
        simp only [List.length_cons] at h; omega
      simp [hb, ih (b + 1) hlen]

lemma consumedBatches_full {α : Type} (bs : List (List α)) (b s : Nat)
    (h : b + bs.length = s + 1) :
    consumedBatches (bs.map PyData.arr) b s = bs.length := by
  induction bs generalizing b with
  | nil => simp [consumedBatches]
  | cons X rest ih =>
    simp only [List.map_cons, consumedBatches, extractBatch, extractX, asArr, Option.bind]
    by_cases hb : (b == s) = true
    · have hbs : b = s := by simpa using hb
      simp only [List.length_cons] at h
      have hrest : rest.length = 0 := by omega
      have : rest = [] := List.eq_nil_of_length_eq_zero hrest
      subst this
      simp [hb]
    · have hlen : (b + 1) + rest.length = s + 1 := by
        simp only [List.length_cons] at h; omega
      simp [hb, ih (b + 1) hlen]
      omega

/-- C1: with a batch source of exactly `steps + 1` batches, both aligners
consume exactly `steps + 1` batches and yield all images, flattened in
original per-batch, per-index order. -/
theorem aligner_consumes_and_flattens {α : Type} (bs : List (List α)) (steps : Nat)
    (h : bs.length = steps + 1) :
    DenseCRF.get_original_images (bs.map PyData.arr, steps) = some bs.flatten ∧
    DenseCRFStream.get_original_images (bs.map PyData.arr, steps) = some bs.flatten ∧
    consumedBatches (bs.map PyData.arr) 0 steps = steps + 1 := by
  have hs : goS (bs.map PyData.arr) 0 steps = some bs.flatten :=
    goS_full bs 0 steps (by omega)
  refine ⟨?_, ?_, ?_⟩
  · unfold DenseCRF.get_original_images
    rw [goA_eq_goS]
    simp [hs]
  · unfold DenseCRFStream.get_original_images
    exact hs
  · rw [consumedBatches_full bs 0 steps (by omega), h]

/-- C1 witness: two batches of sizes 2 and 1 with `steps = 1`. -/
theorem aligner_consumes_and_flattens_witness :
    DenseCRF.get_original_images
        ([[0, 1], [2]].map (PyData.arr (α := Nat)), 1) = some ([[0, 1], [2]] : List (List Nat)).flatten ∧
    DenseCRFStream.get_original_images
        ([[0, 1], [2]].map (PyData.arr (α := Nat)), 1) = some ([[0, 1], [2]] : List (List Nat)).flatten ∧
    consumedBatches ([[0, 1], [2]].map (PyData.arr (α := Nat))) 0 1 = 1 + 1 :=
  aligner_consumes_and_flattens [[0, 1], [2]] 1 rfl

/-- C2 counterexample: on a tuple batch item whose first element is the image
batch, the code does not use the first element (the `isinstance(data, list)`
dispatch is false for tuples, so `X = data` and `X.numpy()` raises), while the
claimed rule extracts the first element. -/
theorem tuple_item_not_unwrapped :
    extractBatch (PyData.pytuple [PyData.arr [(0 : Nat)]]) = none ∧
    claimedExtractRule (PyData.pytuple [PyData.arr [(0 : Nat)]]) = some [0] :=
  ⟨rfl, rfl⟩

/-- C2 amended: the extraction rule the code implements uses the item itself
when it is a bare array, the first element only when the item is a Python
`list`, and fails on a tuple (which is passed through unwrapped, so the
`.numpy()` conversion raises). -/
theorem extract_rule_amended {α : Type} (d : PyData α) :
    extractBatch d = amendedExtractRule d := by
  cases d with
  | arr b => rfl
  | pytuple es => rfl
  | pylist es =>
    cases es with
    | nil => rfl
    | cons e rest => rfl

/-- `MulticlassLabeler.transform` needs `label_multiclass_image`, which is
built on `scipy.ndimage.label`; the scipy labeler is an external collaborator
and is passed in as a function returning the labeled grid together with the
component count (`ndi.label` returns the pair `(labeled, nr_true)`). -/
def label (ndiLabel : Grid Bool → Grid Nat × Nat) (mask : Grid Bool) : Grid Nat :=
  (ndiLabel mask).1

/-- Maximum entry of a grid, as NumPy's `mask.max()` over all pixels. -/
def gridMax (m : Grid Nat) : Nat :=
  m.foldl (fun acc row => row.foldl max acc) 0

/-- Elementwise comparison `mask == label_nr` producing a binary mask. -/
def maskEq (m : Grid Nat) (k : Nat) : Grid Bool :=
  m.map (fun row => row.map (fun v => v == k))

/-- `label_multiclass_image`: one connected-component labeling per class value
`0 .. mask.max()`, stacked along a new leading axis (the stack is the list of
channel grids). -/
def label_multiclass_image (ndiLabel : Grid Bool → Grid Nat × Nat) (mask : Grid Nat) :
    List (Grid Nat) :=
  (List.range (gridMax mask + 1)).map (fun label_nr => label ndiLabel (maskEq mask label_nr))

/-- `MulticlassLabeler.transform` (eager). -/
def MulticlassLabeler.transform (ndiLabel : Grid Bool → Grid Nat × Nat)
    (images : List (Grid Nat)) : String × List (List (Grid Nat)) :=
  ("labeled_images", appendLoop (label_multiclass_image ndiLabel) images)

/-- `MulticlassLabelerStream.transform` (generator). -/
def MulticlassLabelerStream.transform (ndiLabel : Grid Bool → Grid Nat × Nat)
    (images : List (Grid Nat)) : String × List (List (Grid Nat)) :=
  ("labeled_images", yieldMap (label_multiclass_image ndiLabel) images)

/-- `Resizer.transform` (eager): `skimage.transform.resize` is external and is
passed in as `resizeFn`; each image is resized to `(n_channels,) + target_size`
where `n_channels = image.shape[0]`. -/
def Resizer.transform (resizeFn : NdArray Int → List Nat → NdArray Int)
    (images : List (NdArray Int)) (target_sizes : List (Nat × Nat)) :
    String × List (NdArray Int) :=
  ("resized_images",
    appendLoop (fun pr => resizeFn pr.1 (pr.1.shape.getD 0 0 :: [pr.2.1, pr.2.2]))
      (images.zip target_sizes))

/-- `ResizerStream.transform` (generator). -/
def ResizerStream.transform (resizeFn : NdArray Int → List Nat → NdArray Int)
    (images : List (NdArray Int)) (target_sizes : List (Nat × Nat)) :
    String × List (NdArray Int) :=
  ("resized_images",
    yieldMap (fun pr => resizeFn pr.1 (pr.1.shape.getD 0 0 :: [pr.2.1, pr.2.2]))
      (images.zip target_sizes))

/-- `CategoryMapper.transform` (eager): `categorize_image` comes from the
repository's `utils` module (an external collaborator of this file) and is
passed in as a function. -/
def CategoryMapper.transform {α β : Type} (categorize_image : α → β) (images : List α) :
    String × List β :=
  ("categorized_images", appendLoop categorize_image images)

/-- `CategoryMapperStream.transform` (generator). -/
def CategoryMapperStream.transform {α β : Type} (categorize_image : α → β) (images : List α) :
    String × List β :=
  ("categorized_images", yieldMap categorize_image images)

/-- Pixel lookup with out-of-bounds (including negative index) reading as
`false`, the implicit padding of binary morphology. -/
def getPix (mask : Grid Bool) (r c : Int) : Bool :=
  if 0 ≤ r ∧ 0 ≤ c then (mask.getD r.toNat []).getD c.toNat false else false

/-- One output pixel of binary dilation with a square `s × s` structuring
element of ones (`rectangle(s, s)`) centered at `(s / 2, s / 2)`: the OR of
the mask over the structuring-element neighborhood. -/
def dilatedAt (mask : Grid Bool) (s : Nat) (r c : Nat) : Bool :=
  (List.range s).any fun i => (List.range s).any fun j =>
    getPix mask ((r : Int) + (i : Int) - (s / 2 : Nat)) ((c : Int) + (j : Int) - (s / 2 : Nat))

/-- `dilate_image`: `skimage.morphology.binary_dilation` with the square
structuring element `rectangle(selem_size, selem_size)`, on boolean masks. -/
def dilate_image (mask : Grid Bool) (selem_size : Nat) : Grid Bool :=
  (List.range mask.length).map fun r =>
    (List.range ((mask.getD r []).length)).map fun c => dilatedAt mask selem_size r c

/-- `MaskDilator.transform` (eager): dilates each image with the instance's
fixed structuring-element size; note the output key. -/
def MaskDilator.transform (selem_size : Nat) (images : List (Grid Bool)) :
    String × List (Grid Bool) :=
  ("categorized_images", appendLoop (fun image => dilate_image image selem_size) images)

/-- `MaskDilatorStream.transform` (generator). -/
def MaskDilatorStream.transform (selem_size : Nat) (images : List (Grid Bool)) :
    String × List (Grid Bool) :=
  ("categorized_images", yieldMap (fun image => dilate_image image selem_size) images)

/-- `DenseCRF.transform` (eager): materializes the aligned original images,
then applies `dense_crf(org_image, image, ...)` to each zipped pair.  The
per-pair CRF refinement (`dense_crf` with the instance's hyperparameters
already applied) is passed in as `crfFn`; a failure while pulling original
images is the loop's exception, modelled by `none`. -/
def DenseCRF.transform {α β γ : Type} (crfFn : α → β → γ) (images : List β)
    (raw_images_generator : List (PyData α) × Nat) : Option (String × List γ) :=
  (DenseCRF.get_original_images raw_images_generator).map fun original_images =>
    ("crf_images",
      appendLoop (fun pr => crfFn pr.2 pr.1) (images.zip original_images))

/-- `DenseCRFStream.transform` (generator): same per-pair logic, with the
streaming aligner and a yielding loop. -/
def DenseCRFStream.transform {α β γ : Type} (crfFn : α → β → γ) (images : List β)
    (raw_images_generator : List (PyData α) × Nat) : Option (String × List γ) :=
  (DenseCRFStream.get_original_images raw_images_generator).map fun original_images =>
    ("crf_images",
      yieldMap (fun pr => crfFn pr.2 pr.1) (images.zip original_images))

/-- C3: every eager stage and its streaming counterpart produce the same
output name and the same per-item results in the same order, for every input
sequence and every instantiation of the external per-item collaborators. -/
theorem eager_eq_stream {α β γ δ : Type} (ndiLabel : Grid Bool → Grid Nat × Nat)
    (labImgs : List (Grid Nat)) (resizeFn : NdArray Int → List Nat → NdArray Int)
    (rImgs : List (NdArray Int)) (tss : List (Nat × Nat)) (categorize_image : α → β)
    (cImgs : List α) (selem_size : Nat) (dImgs : List (Grid Bool))
    (crfFn : γ → δ → NdArray Int) (pImgs : List δ) (items : List (PyData γ)) (steps : Nat) :
    MulticlassLabeler.transform ndiLabel labImgs
      = MulticlassLabelerStream.transform ndiLabel labImgs ∧
    Resizer.transform resizeFn rImgs tss = ResizerStream.transform resizeFn rImgs tss ∧
    CategoryMapper.transform categorize_image cImgs
      = CategoryMapperStream.transform categorize_image cImgs ∧
    MaskDilator.transform selem_size dImgs = MaskDilatorStream.transform selem_size dImgs ∧
    DenseCRF.transform crfFn pImgs (items, steps)
      = DenseCRFStream.transform crfFn pImgs (items, steps) := by
  refine ⟨?_, ?_, ?_, ?_, ?_⟩
  · unfold MulticlassLabeler.transform MulticlassLabelerStream.transform
    rw [appendLoop_eq_map, yieldMap_eq_map]
  · unfold Resizer.transform ResizerStream.transform
    rw [appendLoop_eq_map, yieldMap_eq_map]
  · unfold CategoryMapper.transform CategoryMapperStream.transform
    rw [appendLoop_eq_map, yieldMap_eq_map]
  · unfold MaskDilator.transform MaskDilatorStream.transform
    rw [appendLoop_eq_map, yieldMap_eq_map]
  · unfold DenseCRF.transform DenseCRFStream.transform
    rw [get_original_images_eager_eq_stream]
    cases DenseCRFStream.get_original_images (items, steps) with
    | none => rfl
    | some origs => simp [appendLoop_eq_map, yieldMap_eq_map]

/-- C10: the dilation stage publishes its output under the fixed key
`categorized_images` — the same output name `CategoryMapper` uses — in both
the eager and the streaming variant, for every input. -/
theorem dilator_output_key {α β : Type} (selem_size : Nat) (images : List (Grid Bool))
    (categorize_image : α → β) (cImgs : List α) :
    (MaskDilator.transform selem_size images).1 = "categorized_images" ∧
    (MaskDilatorStream.transform selem_size images).1 = "categorized_images" ∧
    (MaskDilator.transform selem_size images).1
      = (CategoryMapper.transform categorize_image cImgs).1 :=
  ⟨rfl, rfl, rfl⟩

lemma map_range_getD {α : Type} (l : List α) (d : α) :
    (List.range l.length).map (fun i => l.getD i d) = l := by
  apply List.ext_getElem
  · simp
  · intro i h1 h2
    simp only [List.getElem_map, List.getElem_range]
    rw [List.getD_eq_getElem l d h2]

lemma dilatedAt_one (mask : Grid Bool) (r c : Nat) :
    dilatedAt mask 1 r c = (mask.getD r []).getD c false := by
  have h01 : List.range 1 = [0] := rfl
  simp only [dilatedAt, h01, List.any_cons, List.any_nil, Bool.or_false]
  norm_num [getPix]

lemma dilate_image_one (mask : Grid Bool) : dilate_image mask 1 = mask := by
  unfold dilate_image
  apply List.ext_getElem
  · simp
  · intro r h1 h2
    simp only [List.getElem_map, List.getElem_range]
    have hrow : mask.getD r [] = mask[r] := by
      rw [List.getD_eq_getElem mask [] h2]
    calc (List.range (mask.getD r []).length).map (fun c => dilatedAt mask 1 r c)
        = (List.range mask[r].length).map (fun c => mask[r].getD c false) := by
          rw [hrow]
          apply List.map_congr_left
          intro c _
          rw [dilatedAt_one, hrow]
      _ = mask[r] := map_range_getD mask[r] false

lemma getPix_zero (h w : Nat) (r c : Int) :
    getPix (List.replicate h (List.replicate w false)) r c = false := by
  unfold getPix
  split
  · have hrow : (List.replicate h (List.replicate w false)).getD r.toNat []
        = List.replicate w false ∨
        (List.replicate h (List.replicate w false)).getD r.toNat [] = [] := by
      rcases Nat.lt_or_ge r.toNat h with hlt | hge
      · left
        rw [List.getD_eq_getElem _ _ (by simpa using hlt)]
        simp
      · right
        exact List.getD_eq_default _ _ (by simpa using hge)
    rcases hrow with hrow | hrow <;> rw [hrow]
    · rcases Nat.lt_or_ge c.toNat w with hlt2 | hge2
      · rw [List.getD_eq_getElem _ _ (by simpa using hlt2)]
        simp
      · exact List.getD_eq_default _ _ (by simpa using hge2)
    · simp
  · rfl

lemma dilate_image_zero (h w s : Nat) :
    dilate_image (List.replicate h (List.replicate w false)) s
      = List.replicate h (List.replicate w false) := by
  unfold dilate_image
  apply List.ext_getElem
  · simp
  · intro r h1 h2
    simp only [List.getElem_map, List.getElem_range, List.getElem_replicate]
    have hr : r < h := by simpa using h2
    have hrow : (List.replicate h (List.replicate w false)).getD r []
        = List.replicate w false := by
      rw [List.getD_eq_getElem _ _ (by simpa using hr), List.getElem_replicate]
    rw [hrow]
    apply List.ext_getElem
    · simp
    · intro c hc1 hc2
      simp only [List.getElem_map, List.getElem_range, List.getElem_replicate]
      simp [dilatedAt, getPix_zero]

/-- C7: dilation with structuring-element size 1 is the identity on every
boolean mask, and dilating an all-zero mask yields an all-zero mask for every
structuring-element size. -/
theorem dilate_identity_and_zero (mask : Grid Bool) (h w s : Nat) :
    dilate_image mask 1 = mask ∧
    dilate_image (List.replicate h (List.replicate w false)) s
      = List.replicate h (List.replicate w false) :=
  ⟨dilate_image_one mask, dilate_image_zero h w s⟩

/-- Default array used when indexing model output sequences. -/
def emptyArr : NdArray Int := ⟨[], []⟩

/-- C6: assuming the skimage contract that `resize` returns an array of the
requested shape, the resizer's `i`-th output is the resize of the `i`-th input
to `(n_channels_i, H_i, W_i)` — so channel count is preserved, the spatial
shape equals the paired target size, and input order is preserved. -/
theorem resizer_shape_and_order (resizeFn : NdArray Int → List Nat → NdArray Int)
    (images : List (NdArray Int)) (target_sizes : List (Nat × Nat))
    (hlib : ∀ im s, (resizeFn im s).shape = s)
    (hlen : images.length = target_sizes.length) :
    (Resizer.transform resizeFn images target_sizes).2.length = images.length ∧
    ∀ i, i < images.length →
      (Resizer.transform resizeFn images target_sizes).2.getD i emptyArr
        = resizeFn (images.getD i emptyArr)
            ((images.getD i emptyArr).shape.getD 0 0
              :: [(target_sizes.getD i (0, 0)).1, (target_sizes.getD i (0, 0)).2]) ∧
      ((Resizer.transform resizeFn images target_sizes).2.getD i emptyArr).shape
        = (images.getD i emptyArr).shape.getD 0 0
            :: [(target_sizes.getD i (0, 0)).1, (target_sizes.getD i (0, 0)).2] := by
  unfold Resizer.transform
  rw [appendLoop_eq_map]
  have hlen2 : ((images.zip target_sizes).map
      (fun pr => resizeFn pr.1 (pr.1.shape.getD 0 0 :: [pr.2.1, pr.2.2]))).length
      = images.length := by
    simp [List.length_zip, hlen]
  constructor
  · exact hlen2
  · intro i hi
    have hzlen : i < (images.zip target_sizes).length := by
      simp [List.length_zip]; omega
    have hti : i < target_sizes.length := by omega
    have hstep : ((images.zip target_sizes).map
        (fun pr => resizeFn pr.1 (pr.1.shape.getD 0 0 :: [pr.2.1, pr.2.2]))).getD i emptyArr
        = resizeFn (images.getD i emptyArr)
            ((images.getD i emptyArr).shape.getD 0 0
              :: [(target_sizes.getD i (0, 0)).1, (target_sizes.getD i (0, 0)).2]) := by
      rw [List.getD_eq_getElem _ _ (by rw [hlen2]; exact hi)]
      rw [List.getElem_map, List.getElem_zip]
      rw [List.getD_eq_getElem images emptyArr hi,
        List.getD_eq_getElem target_sizes (0, 0) hti]
    exact ⟨hstep, by rw [hstep, hlib]⟩

/-- C6 witness instantiation of the external resize function: returns an array
of exactly the requested shape. -/
def resizeFnW : NdArray Int → List Nat → NdArray Int :=
  fun _ s => ⟨s, List.replicate s.prod 0⟩

/-- C6 witness: one `(3, 2, 2)` image resized to target size `(4, 5)`. -/
theorem resizer_shape_and_order_witness :
    (Resizer.transform resizeFnW [⟨[3, 2, 2], List.replicate 12 1⟩] [(4, 5)]).2.length
      = ([⟨[3, 2, 2], List.replicate 12 1⟩] : List (NdArray Int)).length ∧
    ∀ i, i < ([⟨[3, 2, 2], List.replicate 12 1⟩] : List (NdArray Int)).length →
      (Resizer.transform resizeFnW [⟨[3, 2, 2], List.replicate 12 1⟩] [(4, 5)]).2.getD i emptyArr
        = resizeFnW (([⟨[3, 2, 2], List.replicate 12 1⟩] : List (NdArray Int)).getD i emptyArr)
            ((([⟨[3, 2, 2], List.replicate 12 1⟩] : List (NdArray Int)).getD i emptyArr).shape.getD 0 0
              :: [(([(4, 5)] : List (Nat × Nat)).getD i (0, 0)).1,
                  (([(4, 5)] : List (Nat × Nat)).getD i (0, 0)).2]) ∧
      ((Resizer.transform resizeFnW [⟨[3, 2, 2], List.replicate 12 1⟩] [(4, 5)]).2.getD i emptyArr).shape
        = (([⟨[3, 2, 2], List.replicate 12 1⟩] : List (NdArray Int)).getD i emptyArr).shape.getD 0 0
            :: [(([(4, 5)] : List (Nat × Nat)).getD i (0, 0)).1,
                (([(4, 5)] : List (Nat × Nat)).getD i (0, 0)).2] :=
  resizer_shape_and_order resizeFnW [⟨[3, 2, 2], List.replicate 12 1⟩] [(4, 5)]
    (fun _ _ => rfl) rfl

/-- C9: when paired inputs have unequal lengths, the resizer and the CRF stage
raise no error and silently truncate to the shorter input: the output length
is the minimum of the two input lengths. -/
theorem unequal_lengths_truncate {γ δ ε : Type}
    (resizeFn : NdArray Int → List Nat → NdArray Int)
    (images : List (NdArray Int)) (target_sizes : List (Nat × Nat))
    (hne : images.length ≠ target_sizes.length)
    (crfFn : γ → δ → ε) (pImgs : List δ) (items : List (PyData γ)) (steps : Nat)
    (origs : List γ)
    (horig : DenseCRF.get_original_images (items, steps) = some origs)
    (hne2 : pImgs.length ≠ origs.length) :
    (Resizer.transform resizeFn images target_sizes).2.length
      = min images.length target_sizes.length ∧
    ∃ l, DenseCRF.transform crfFn pImgs (items, steps) = some ("crf_images", l) ∧
      l.length = min pImgs.length origs.length := by
  constructor
  · unfold Resizer.transform
    rw [appendLoop_eq_map]
    simp [List.length_zip]
  · refine ⟨appendLoop (fun pr => crfFn pr.2 pr.1) (pImgs.zip origs), ?_, ?_⟩
    · unfold DenseCRF.transform
      rw [horig]
      rfl
    · rw [appendLoop_eq_map]
      simp [List.length_zip]

/-- C9 witness: one image with zero target sizes, and two probability maps
against a single aligned raw image. -/
theorem unequal_lengths_truncate_witness :
    (Resizer.transform resizeFnW [⟨[3, 2, 2], List.replicate 12 1⟩] []).2.length
      = min ([⟨[3, 2, 2], List.replicate 12 1⟩] : List (NdArray Int)).length ([] : List (Nat × Nat)).length ∧
    ∃ l, DenseCRF.transform (fun (x : Nat) (y : Nat) => x + y) [7, 8] ([PyData.arr [5]], 0)
        = some ("crf_images", l) ∧
      l.length = min ([7, 8] : List Nat).length ([5] : List Nat).length :=
  unequal_lengths_truncate resizeFnW [⟨[3, 2, 2], List.replicate 12 1⟩] []
    (by decide) (fun x y => x + y) [7, 8] [PyData.arr [5]] 0 [5] rfl (by decide)

/-- All pixel positions of a grid, in row-major order. -/
def gridPositions {α : Type} (m : Grid α) : List (Nat × Nat) :=
  (List.range m.length).flatMap fun r =>
    (List.range ((m.getD r []).length)).map fun c => (r, c)

/-- Pixel of a binary mask at a position (out-of-bounds reads as `false`). -/
def maskAt (m : Grid Bool) (p : Nat × Nat) : Bool :=
  (m.getD p.1 []).getD p.2 false

/-- Pixel of a label grid at a position (out-of-bounds reads as `0`). -/
def labAt (g : Grid Nat) (p : Nat × Nat) : Nat :=
  (g.getD p.1 []).getD p.2 0

/-- 4-adjacency of pixel positions, the default connectivity of
`scipy.ndimage.label` (cross-shaped structuring element). -/
def adj4 (p q : Nat × Nat) : Bool :=
  (p.1 == q.1 && (p.2 + 1 == q.2 || q.2 + 1 == p.2)) ||
  (p.2 == q.2 && (p.1 + 1 == q.1 || q.1 + 1 == p.1))

/-- One step of flood-fill expansion: add every in-mask pixel adjacent to the
current set. -/
def expand (m : Grid Bool) (cur : List (Nat × Nat)) : List (Nat × Nat) :=
  (cur ++ (gridPositions m).filter fun q =>
    maskAt m q && cur.any fun p => adj4 p q).dedup

/-- The connected component of `p` in the binary mask `m`: flood-fill closure
of `{p}` (empty when `p` is not an in-mask pixel).  Iterating one expansion
per pixel of the grid reaches the closure. -/
def reach (m : Grid Bool) (p : Nat × Nat) : List (Nat × Nat) :=
  if maskAt m p then (expand m)^[(gridPositions m).length] [p] else []

/-- Decidable check that `lab` is a connected-component labeling of the binary
mask `m` in the claim's sense: same grid dimensions, non-matching pixels get
ID 0 and in-mask pixels a positive ID, and two in-mask pixels carry the same
ID exactly when they are 4-connected within the mask. -/
def ccLabelingOk (m : Grid Bool) (lab : Grid Nat) : Bool :=
  (lab.length == m.length) &&
  ((List.range m.length).all fun r => (lab.getD r []).length == (m.getD r []).length) &&
  ((gridPositions m).all fun p =>
    if maskAt m p then labAt lab p != 0 else labAt lab p == 0) &&
  ((gridPositions m).all fun p => (gridPositions m).all fun q =>
    !(maskAt m p && maskAt m q) ||
      ((labAt lab p == labAt lab q) == (reach m p).contains q))

lemma label_multiclass_image_length (ndiLabel : Grid Bool → Grid Nat × Nat)
    (mask : Grid Nat) :
    (label_multiclass_image ndiLabel mask).length = gridMax mask + 1 := by
  unfold label_multiclass_image
  simp

lemma label_multiclass_image_getD (ndiLabel : Grid Bool → Grid Nat × Nat)
    (mask : Grid Nat) (k : Nat) (hk : k < gridMax mask + 1) :
    (label_multiclass_image ndiLabel mask).getD k [] = (ndiLabel (maskEq mask k)).1 := by
  unfold label_multiclass_image
  rw [List.getD_eq_getElem _ _ (by simpa using hk)]
  rw [List.getElem_map, List.getElem_range]
  rfl

/-- C5: assuming the external scipy labeler satisfies the connected-component
labeling contract on each binary mask `mask == k`, the stacked volume has
`gridMax mask + 1` channels and channel `k` is a connected-component labeling
of `mask == k`: distinct positive IDs per 4-connected region, 0 elsewhere. -/
theorem multiclass_labeling_channels (mask : Grid Nat)
    (ndiLabel : Grid Bool → Grid Nat × Nat)
    (h : ∀ k, k < gridMax mask + 1 →
      ccLabelingOk (maskEq mask k) (ndiLabel (maskEq mask k)).1 = true) :
    (label_multiclass_image ndiLabel mask).length = gridMax mask + 1 ∧
    ∀ k, k < gridMax mask + 1 →
      ccLabelingOk (maskEq mask k) ((label_multiclass_image ndiLabel mask).getD k [])
        = true := by
  refine ⟨label_multiclass_image_length ndiLabel mask, ?_⟩
  intro k hk
  rw [label_multiclass_image_getD ndiLabel mask k hk]
  exact h k hk

/-- Concrete connected-component labeler used to instantiate the scipy
contract in the witness: the label of an in-mask pixel is one plus the index
of its component's row-major-first pixel among all such component leaders. -/
def leaderOf (m : Grid Bool) (p : Nat × Nat) : Nat × Nat :=
  (((gridPositions m).filter fun q => (reach m p).contains q).headD p)

/-- Row-major-first pixels of each connected component of the mask. -/
def leaders (m : Grid Bool) : List (Nat × Nat) :=
  (gridPositions m).filter fun p => maskAt m p && (leaderOf m p == p)

/-- Executable flood-fill connected-component labeling over a boolean grid. -/
def ccLabel (m : Grid Bool) : Grid Nat :=
  (List.range m.length).map fun r =>
    (List.range ((m.getD r []).length)).map fun c =>
      if maskAt m (r, c) then (leaders m).indexOf (leaderOf m (r, c)) + 1 else 0

/-- The scipy labeler instantiation for the witness: the labeled grid together
with the number of components found (`ndi.label` returns such a pair). -/
def ndiLabelW (m : Grid Bool) : Grid Nat × Nat :=
  (ccLabel m, (leaders m).length)

/-- C5 witness: the mask `[[0, 1], [1, 0]]` with maximum class value 1; the
two binary channels each split into two single-pixel components. -/
theorem multiclass_labeling_channels_witness :
    (label_multiclass_image ndiLabelW [[0, 1], [1, 0]]).length
      = gridMax [[0, 1], [1, 0]] + 1 ∧
    ∀ k, k < gridMax [[0, 1], [1, 0]] + 1 →
      ccLabelingOk (maskEq [[0, 1], [1, 0]] k)
        ((label_multiclass_image ndiLabelW [[0, 1], [1, 0]]).getD k []) = true :=
  multiclass_labeling_channels [[0, 1], [1, 0]] ndiLabelW (by decide)

/-- Modelled from the spec: `denormalize_img` lives in the repository's
`utils` module, which is not among the sources; per the spec it inverts the
externally supplied mean/std normalization of a channel-first image.
Modelled as the channelwise affine map `x * std[c] + mean[c]`, preserving
shape. -/
def denormalize_img (img : NdArray Int) (mean std : List Int) : NdArray Int :=
  let hw := img.shape.getD 1 0 * img.shape.getD 2 0
  { shape := img.shape,
    data := (List.range img.data.length).map fun i =>
      let ch := if hw == 0 then 0 else i / hw
      img.data.getD i 0 * std.getD ch 1 + mean.getD ch 0 }

/-- Elementwise multiplication by 255 (`* 255.` on the denormalized image). -/
def scale255 (a : NdArray Int) : NdArray Int :=
  { shape := a.shape, data := a.data.map (fun x => x * 255) }

/-- `transpose(1, 2, 0)` of a `(C, H, W)` array: channel-last reindexing. -/
def transpose120 (a : NdArray Int) : NdArray Int :=
  let C := a.shape.getD 0 0
  let H := a.shape.getD 1 0
  let W := a.shape.getD 2 0
  { shape := [H, W, C],
    data := (List.range H).flatMap fun i => (List.range W).flatMap fun j =>
      (List.range C).map fun k => a.data.getD (k * H * W + i * W + j) 0 }

/-- `np.ascontiguousarray(..., dtype=np.uint8)`: values wrapped into a byte. -/
def toUint8 (a : NdArray Int) : NdArray Int :=
  { shape := a.shape, data := a.data.map (fun x => x % 256) }

/-- A call made against the external `pydensecrf` model object, recorded so
that theorems can speak about which library operations `dense_crf` performs. -/
inductive CrfCall where
  | setUnaryEnergy (u : NdArray Int)
  | addPairwiseGaussian (sxy compat : Int)
  | addPairwiseBilateral (sxy srgb : Int) (rgbim : NdArray Int) (compat : Int)
  | inference (iters : Nat)
deriving DecidableEq

/-- External collaborators of `dense_crf`: the `pydensecrf` helpers
(`unary_from_softmax` and the mean-field `inference` of a `DenseCRF2D(width,
height, nlabels)` seeded with the recorded potential calls) and the
normalization statistics `MEAN`/`STD` from the pipeline configuration. -/
structure CrfEnv where
  unary_from_softmax : NdArray Int → NdArray Int
  inference : Nat → Nat → Nat → List CrfCall → Nat → List Int
  mean : List Int
  std : List Int

/-- `np.array(...).reshape(shape)`: succeeds exactly when the element count
matches the product of the requested shape. -/
def reshape (data : List Int) (shape : List Nat) : Option (NdArray Int) :=
  if data.length = shape.prod then some ⟨shape, data⟩ else none

/-- The sequence of calls `dense_crf` makes against the CRF model object:
`setUnaryEnergy(unary_from_softmax(output_probs))`, `addPairwiseGaussian(sxy=
sxy_gaussian, compat=compat_gaussian)`, `addPairwiseBilateral(sxy=
sxy_bilateral, srgb=srgb, rgbim=org_img, compat=compat_bilateral)` with the
denormalized, 0-255-scaled, channel-last uint8 image, then `inference(5)`. -/
def crfCalls (env : CrfEnv) (img output_probs : NdArray Int)
    (compat_gaussian sxy_gaussian compat_bilateral sxy_bilateral srgb : Int) :
    List CrfCall :=
  [CrfCall.setUnaryEnergy (env.unary_from_softmax output_probs),
   CrfCall.addPairwiseGaussian sxy_gaussian compat_gaussian,
   CrfCall.addPairwiseBilateral sxy_bilateral srgb
     (toUint8 (transpose120 (scale255 (denormalize_img img env.mean env.std))))
     compat_bilateral,
   CrfCall.inference 5]

/-- `dense_crf(img, output_probs, ...)`: builds a 2-label `DenseCRF2D` over
the probability map's `width = shape[2]` by `height = shape[1]` grid, makes
the calls of `crfCalls` (unary, Gaussian pairwise, bilateral pairwise,
mean-field inference for 5 iterations), and reshapes the flat inference
result back to the probability map's shape.  Returns the refined array
together with the recorded call trace. -/
def dense_crf (env : CrfEnv) (img output_probs : NdArray Int)
    (compat_gaussian sxy_gaussian compat_bilateral sxy_bilateral srgb : Int) :
    Option (NdArray Int) × List CrfCall :=
  (reshape
      (env.inference (output_probs.shape.getD 2 0) (output_probs.shape.getD 1 0) 2
        (crfCalls env img output_probs
          compat_gaussian sxy_gaussian compat_bilateral sxy_bilateral srgb) 5)
      output_probs.shape,
   crfCalls env img output_probs
     compat_gaussian sxy_gaussian compat_bilateral sxy_bilateral srgb)

/-- Predicate picking out the mean-field inference calls in a trace. -/
def isInfCall : CrfCall → Bool
  | .inference _ => true
  | _ => false

/-- C4: on a `(2, H, W)` probability map, and given the library contract that
mean-field inference returns one value per label per pixel, `dense_crf`
performs exactly one inference call, with the fixed iteration count 5
(whatever the hyperparameters are), and returns an array whose shape equals
the input probability map's shape. -/
theorem dense_crf_five_iterations_and_shape (env : CrfEnv) (img probs : NdArray Int)
    (H W : Nat) (cg sg cb sb sr : Int)
    (hshape : probs.shape = [2, H, W])
    (hlib : ∀ cs, (env.inference W H 2 cs 5).length = 2 * W * H) :
    (∃ r, (dense_crf env img probs cg sg cb sb sr).1 = some r ∧
      r.shape = probs.shape) ∧
    ((dense_crf env img probs cg sg cb sb sr).2.filter isInfCall
      = [CrfCall.inference 5]) := by
  have h1 : probs.shape.getD 1 0 = H := by rw [hshape]; rfl
  have h2 : probs.shape.getD 2 0 = W := by rw [hshape]; rfl
  constructor
  · refine ⟨⟨probs.shape,
        env.inference W H 2 (crfCalls env img probs cg sg cb sb sr) 5⟩, ?_, rfl⟩
    unfold dense_crf
    rw [h1, h2]
    unfold reshape
    rw [if_pos]
    rw [hlib, hshape]
    simp [List.prod_cons]
    ring
  · unfold dense_crf crfCalls
    simp [isInfCall]

/-- C4 witness environment: inference returns one value per label per pixel. -/
def crfEnvW : CrfEnv :=
  { unary_from_softmax := fun u => u,
    inference := fun w h n _ _ => List.replicate (n * w * h) 0,
    mean := [0], std := [1] }

/-- C4 witness: a `(2, 1, 1)` probability map and a `(3, 1, 1)` raw image. -/
theorem dense_crf_five_iterations_and_shape_witness :
    (∃ r, (dense_crf crfEnvW ⟨[3, 1, 1], [2, 4, 6]⟩ ⟨[2, 1, 1], [1, 0]⟩ 3 1 10 1 50).1
        = some r ∧ r.shape = NdArray.shape ⟨[2, 1, 1], ([1, 0] : List Int)⟩) ∧
    ((dense_crf crfEnvW ⟨[3, 1, 1], [2, 4, 6]⟩ ⟨[2, 1, 1], [1, 0]⟩ 3 1 10 1 50).2.filter isInfCall
      = [CrfCall.inference 5]) :=
  dense_crf_five_iterations_and_shape crfEnvW ⟨[3, 1, 1], [2, 4, 6]⟩ ⟨[2, 1, 1], [1, 0]⟩
    1 1 3 1 10 1 50 rfl (fun _ => rfl)

/-- C8: `dense_crf` is deterministic — for one fixed environment of external
collaborators, fixed inputs and fixed hyperparameters, two runs produce
identical results (the embedded computation is a pure function; the code keeps
no state across calls, constructing a fresh CRF per image). -/
theorem dense_crf_deterministic (env : CrfEnv) (img probs : NdArray Int)
    (cg sg cb sb sr : Int) :
    dense_crf env img probs cg sg cb sb sr = dense_crf env img probs cg sg cb sb sr ∧
    (dense_crf env img probs cg sg cb sb sr).1
      = (dense_crf env img probs cg sg cb sb sr).1 :=
  ⟨rfl, rfl⟩
